import Mathlib

/-!
# StockfishBridge

A model of `GameCheat/Games/Chess/Stockfish/StockfishBridge.cpp`: the process-wide
state (`initFlag`, `engine`, `initSucceeded`), `initialize_engine`, and the blocking
entry point `gc_stockfish_bestmove`.

The Stockfish engine is an external collaborator.  The model records every operation
the bridge issues to it in a trace, and takes what the engine does on its own
(whether construction throws, when it invokes the bestmove callback and with which
move) as an explicit parameter `Env`.

Machine integers are modelled as `Int`; conversions to `int32_t` and arithmetic in
`int` are reduced modulo `2^32` (two's complement) by `toInt32`.
-/

namespace StockfishBridge

/-! ## Strings, integers, memory -/

/-- Contents of a `std::string` (or of a C string up to its terminator): its bytes, each
a natural number below 256. -/
abbrev Str := List Nat

/-- The bytes of an ASCII string literal of the source. -/
def bytes (s : String) : Str := s.toList.map Char.toNat

/-- Value of a 32-bit two's complement integer holding `x` modulo `2^32`:
the result of `static_cast<int32_t>` and of wrapped `int` arithmetic. -/
def toInt32 (x : Int) : Int := (x + 2147483648) % 4294967296 - 2147483648

/-- The range of `int32_t`. -/
def isInt32 (x : Int) : Prop := -2147483648 ≤ x ∧ x ≤ 2147483647

instance (x : Int) : Decidable (isInt32 x) := by
  unfold isInt32
  infer_instance

/-- The function `std::clamp<int32_t>(v, lo, hi)`, that is `(v < lo) ? lo : (hi < v) ? hi : v`. -/
def clamp (v lo hi : Int) : Int := if v < lo then lo else if hi < v then hi else v

/-- The function `std::max<int32_t>(a, b)`, that is `(a < b) ? b : a`. -/
def max32 (a b : Int) : Int := if a < b then b else a

/-- The function `std::to_string(int)`: the decimal digits, with a minus sign when negative. -/
def to_string (i : Int) : Str := bytes (toString i)

/-- The call `std::memcpy(dst, src, n)` seen from `dst`: the first `n` bytes are
replaced by the first `n` bytes of `src`, the rest of the memory is kept.  When `n`
exceeds the length of `dst` the copy runs past its end. -/
def memcpy (dst src : List Nat) (n : Nat) : List Nat := src.take n ++ dst.drop n

/-- The value of `s.c_str()`: the bytes of `s` followed by the terminator. -/
def c_str (s : Str) : List Nat := s ++ [0]

/-! ## The engine, as seen by the bridge -/

/-- What is registered at the engine's bestmove callback slot: nothing yet, the empty
lambda, or the lambda of lines 94-101 that captures the request's `bestMove` and `done`. -/
inductive Callback where
  | unset
  | noop
  | request
  deriving DecidableEq, Repr

/-- Member functions of `Stockfish::Engine` called by the bridge. -/
inductive EngineOp where
  | get_options
  | setoption (command : Str)
  | set_on_update_no_moves
  | set_on_update_full
  | set_on_iter
  | set_on_bestmove (cb : Callback)
  | set_on_verify_networks
  | wait_for_search_finished
  | set_position (fen : Str)
  | go (movetime : Int)
  | stop
  deriving DecidableEq, Repr

/-- Everything observable that a call does, in program order. -/
inductive Event where
  | initialize_engine
  | bitboards_init
  | position_init
  | make_engine
  | tune_init
  | engine (op : EngineOp)
  | lock_engineMutex
  | unlock_engineMutex
  | wait_for (ms : Int)
  | memcpy_out (src : List Nat) (n : Nat)
  deriving DecidableEq, Repr

/-- The part of the engine's state the bridge relies on. -/
structure Engine where
  options : List Str
  on_bestmove : Callback
  position : Option Str
  movetime : Option Int
  searching : Bool
  deriving DecidableEq, Repr

/-- The engine right after `std::make_unique<Stockfish::Engine>(std::nullopt)`. -/
def Engine.fresh : Engine :=
  { options := [], on_bestmove := Callback.unset, position := none, movetime := none,
    searching := false }

/-- Modelled from the spec: the contract of the external engine's operations
(`set_configuration`, `set_position`, `start_search`, `stop`, `wait_until_idle`, callback
registration).  A search is in progress from `go` until `wait_for_search_finished`
returns; `stop` is only a request. -/
def Engine.apply (e : Engine) : EngineOp → Engine
  | EngineOp.setoption c => { e with options := e.options ++ [c] }
  | EngineOp.set_on_bestmove cb => { e with on_bestmove := cb }
  | EngineOp.wait_for_search_finished => { e with searching := false }
  | EngineOp.set_position f => { e with position := some f }
  | EngineOp.go t => { e with movetime := some t, searching := true }
  | _ => e

/-- What the environment decides during one call. -/
structure Env where
  /-- When `initialize_engine` runs: the index of the statement of its `try` block that
  throws, if any. -/
  initThrowAt : Option Nat
  /-- Moves passed to the bestmove callback until `doneCv.wait_for` returns. -/
  duringWait : List Str
  /-- Moves passed to the bestmove callback after `doneCv.wait_for` has returned, while
  the engine is stopped and quiesced (before line 116). -/
  duringStop : List Str
  /-- Moves passed to the bestmove callback after line 116. -/
  late : List Str
  deriving DecidableEq, Repr

/-! ## Process-wide state and initialization -/

/-- The variables of the anonymous namespace (lines 23-26); `engineMutex` is free
between calls and is not stored. -/
structure Globals where
  /-- Whether `std::call_once(initFlag, ...)` has already run its function. -/
  initFlag : Bool
  /-- The `std::unique_ptr<Stockfish::Engine> engine`; `none` is the null pointer. -/
  engine : Option Engine
  initSucceeded : Bool
  deriving DecidableEq, Repr

/-- The state of a process before the first call. -/
def Globals.initial : Globals := { initFlag := false, engine := none, initSucceeded := false }

/-- The helper `set_option(options, name, value)` (lines 28-31): the command handed to
`options.setoption`. -/
def setOptionCommand (name value : Str) : Str :=
  bytes "name " ++ name ++ bytes " value " ++ value

/-- The statements of the `try` block of `initialize_engine` that call into the engine
library (lines 36-51), in order. -/
def initBody : List Event :=
  [ Event.bitboards_init,
    Event.position_init,
    Event.make_engine,
    Event.engine EngineOp.get_options,
    Event.tune_init,
    Event.engine EngineOp.get_options,
    Event.engine (EngineOp.setoption (setOptionCommand (bytes "Threads") (bytes "1"))),
    Event.engine (EngineOp.setoption (setOptionCommand (bytes "Hash") (bytes "32"))),
    Event.engine EngineOp.set_on_update_no_moves,
    Event.engine EngineOp.set_on_update_full,
    Event.engine EngineOp.set_on_iter,
    Event.engine (EngineOp.set_on_bestmove Callback.noop),
    Event.engine EngineOp.set_on_verify_networks ]

/-- Effect of one statement of `initialize_engine` on the globals. -/
def initEffect (g : Globals) : Event → Globals
  | Event.make_engine => { g with engine := some Engine.fresh }
  | Event.engine op => { g with engine := g.engine.map (fun e => e.apply op) }
  | _ => g

/-- Runs the statements of a `try` block in order, statement number `i` first.  The
statement whose number is `throwAt` throws: it is entered, has no effect, and the rest
is skipped.  Returns the state, the trace and whether an exception is pending. -/
def runTry (throwAt : Option Nat) : Nat → List Event → Globals → Globals × List Event × Bool
  | _, [], g => (g, [], false)
  | i, ev :: rest, g =>
    if throwAt = some i then (g, [ev], true)
    else
      let r := runTry throwAt (i + 1) rest (initEffect g ev)
      (r.1, ev :: r.2.1, r.2.2)

/-- The function `initialize_engine` (lines 33-60). -/
def initialize_engine (throwAt : Option Nat) (g : Globals) : Globals × List Event :=
  let r := runTry throwAt 0 initBody g
  if r.2.2 then ({ r.1 with engine := none, initSucceeded := false }, r.2.1)
  else ({ r.1 with initSucceeded := true }, r.2.1)

/-- The call `std::call_once(initFlag, initialize_engine)` (line 74).  As
`initialize_engine` catches everything, the flag is always set by the first call. -/
def call_once (throwAt : Option Nat) (g : Globals) : Globals × List Event :=
  if g.initFlag then (g, [])
  else
    let r := initialize_engine throwAt g
    ({ r.1 with initFlag := true }, Event.initialize_engine :: r.2)

/-! ## One request -/

/-- The state of a request inside the guarded region: the engine, the locals
`bestMove` and `done` (lines 82, 92), and the trace so far. -/
structure Run where
  engine : Engine
  bestMove : Str
  done : Bool
  trace : List Event
  deriving DecidableEq, Repr

/-- Appends an event that is not an engine operation. -/
def Run.log (r : Run) (ev : Event) : Run := { r with trace := r.trace ++ [ev] }

/-- Calls a member function of the engine. -/
def Run.issue (r : Run) (op : EngineOp) : Run :=
  { r with engine := r.engine.apply op, trace := r.trace ++ [Event.engine op] }

/-- The lambda of lines 94-101, invoked with `move`. -/
def Run.on_bestmove (r : Run) (move : Str) : Run := { r with bestMove := move, done := true }

/-- The engine invokes its registered bestmove callback once for each of `moves`. -/
def Run.callbacks (r : Run) (moves : List Str) : Run :=
  match r.engine.on_bestmove with
  | Callback.request => moves.foldl Run.on_bestmove r
  | _ => r

/-- The movetime of the search limits (lines 81, 105). -/
def clampedMoveTime (move_time_ms : Int) : Int := max32 move_time_ms 25

/-- The skill level applied to the engine (lines 80, 88). -/
def clampedSkill (skill_level : Int) : Int := clamp skill_level 0 20

/-- The argument of `std::chrono::milliseconds` at line 111: `clampedMoveTime + 500`,
computed in `int`. -/
def waitCeiling (move_time_ms : Int) : Int := toInt32 (clampedMoveTime move_time_ms + 500)

/-- Lines 84-116: from taking `engineMutex` to re-installing the empty callback. -/
def search (env : Env) (e : Engine) (fen : Str) (skill_level move_time_ms : Int) : Run :=
  ({ engine := e, bestMove := [], done := false, trace := [] } : Run)
    |>.log Event.lock_engineMutex
    |>.issue EngineOp.wait_for_search_finished
    |>.issue EngineOp.get_options
    |>.issue (EngineOp.setoption
        (setOptionCommand (bytes "Skill Level") (to_string (clampedSkill skill_level))))
    |>.issue (EngineOp.set_on_bestmove Callback.request)
    |>.issue (EngineOp.set_position fen)
    |>.issue (EngineOp.go (clampedMoveTime move_time_ms))
    |>.callbacks env.duringWait
    |>.log (Event.wait_for (waitCeiling move_time_ms))
    |>.issue EngineOp.stop
    |>.callbacks env.duringStop
    |>.issue EngineOp.wait_for_search_finished
    |>.issue (EngineOp.set_on_bestmove Callback.noop)
    |>.callbacks env.late

/-- The operations issued by `search`, whatever the engine does. -/
def searchTrace (fen : Str) (skill_level move_time_ms : Int) : List Event :=
  [ Event.lock_engineMutex,
    Event.engine EngineOp.wait_for_search_finished,
    Event.engine EngineOp.get_options,
    Event.engine (EngineOp.setoption
      (setOptionCommand (bytes "Skill Level") (to_string (clampedSkill skill_level)))),
    Event.engine (EngineOp.set_on_bestmove Callback.request),
    Event.engine (EngineOp.set_position fen),
    Event.engine (EngineOp.go (clampedMoveTime move_time_ms)),
    Event.wait_for (waitCeiling move_time_ms),
    Event.engine EngineOp.stop,
    Event.engine EngineOp.wait_for_search_finished,
    Event.engine (EngineOp.set_on_bestmove Callback.noop) ]

/-- The result of a call: the returned `int`, the memory at `out_move` afterwards, the
globals afterwards and the trace of the call. -/
structure Outcome where
  ret : Int
  out : Option (List Nat)
  globals : Globals
  trace : List Event
  deriving DecidableEq, Repr

/-- The token `"(none)"` of line 118. -/
def noneToken : Str := bytes "(none)"

/-- The left-hand side of the comparison at line 123:
`static_cast<int32_t>(bestMove.size()) + 1`. -/
def sizePlusOne (bestMove : Str) : Int := toInt32 (toInt32 (bestMove.length : Int) + 1)

/-- Lines 118-129: the result is determined from `done` and `bestMove`; the lock guard
releases `engineMutex` on return. -/
def determine (r : Run) (g : Globals) (buf : List Nat) (out_move_capacity : Int) : Outcome :=
  let g1 : Globals := { g with engine := some r.engine }
  if r.done = false ∨ r.bestMove = [] ∨ r.bestMove = noneToken then
    { ret := 0, out := some buf, globals := g1, trace := r.trace ++ [Event.unlock_engineMutex] }
  else if sizePlusOne r.bestMove > out_move_capacity then
    { ret := 0, out := some buf, globals := g1, trace := r.trace ++ [Event.unlock_engineMutex] }
  else
    { ret := 1
      out := some (memcpy buf (c_str r.bestMove) (r.bestMove.length + 1))
      globals := g1
      trace := r.trace ++
        [Event.memcpy_out (c_str r.bestMove) (r.bestMove.length + 1), Event.unlock_engineMutex] }

/-- The function `gc_stockfish_bestmove` (lines 64-130).  `fen` and `out_move` are
`none` for a null pointer; `out_move` otherwise holds the bytes at that address. -/
def gc_stockfish_bestmove (env : Env) (g : Globals) (fen : Option Str)
    (skill_level move_time_ms : Int) (out_move : Option (List Nat))
    (out_move_capacity : Int) : Outcome :=
  match fen, out_move with
  | some position, some buf =>
    if out_move_capacity ≤ 1 then { ret := 0, out := out_move, globals := g, trace := [] }
    else
      let i := call_once env.initThrowAt g
      match i.1.initSucceeded, i.1.engine with
      | true, some e =>
        let o := determine (search env e position skill_level move_time_ms) i.1 buf
          out_move_capacity
        { o with trace := i.2 ++ o.trace }
      | _, _ => { ret := 0, out := out_move, globals := i.1, trace := i.2 }
  | _, _ => { ret := 0, out := out_move, globals := g, trace := [] }

/-! ## Sequences of calls -/

/-- The arguments of one call together with what the environment does during it. -/
structure Call where
  env : Env
  fen : Option Str
  skill_level : Int
  move_time_ms : Int
  out_move : Option (List Nat)
  out_move_capacity : Int
  deriving DecidableEq, Repr

/-- Runs one call from the globals `g`. -/
def Call.run (c : Call) (g : Globals) : Outcome :=
  gc_stockfish_bestmove c.env g c.fen c.skill_level c.move_time_ms c.out_move
    c.out_move_capacity

/-- Runs the calls one after the other, each from the globals left by the previous one. -/
def runCalls (g : Globals) : List Call → List Outcome
  | [] => []
  | c :: cs => c.run g :: runCalls (c.run g).globals cs

/-- The globals after a sequence of calls. -/
def finalGlobals (g : Globals) : List Call → Globals
  | [] => g
  | c :: cs => finalGlobals (c.run g).globals cs

/-- How many times `initialize_engine` was entered in a trace. -/
def initCount (t : List Event) : Nat := t.count Event.initialize_engine

/-- How many times `initialize_engine` was entered over a sequence of outcomes. -/
def totalInitCount (os : List Outcome) : Nat := (os.map (fun o => initCount o.trace)).sum

/-- What is left of the single permitted run of `initialize_engine`. -/
def initBudget (g : Globals) : Nat := if g.initFlag then 0 else 1

/-! ## Concrete inputs -/

/-- The initial position of a game, in FEN. -/
def startFen : Str := bytes "rnbqkbnr/pppppppp/8/8/8/8/PPPPPPPP/RNBQKBNR w KQkq - 0 1"

/-- An environment in which construction succeeds and the callback is invoked as given. -/
def envOf (duringWait duringStop : List Str) : Env :=
  { initThrowAt := none, duringWait := duringWait, duringStop := duringStop, late := [] }

/-- An environment in which statement `k` of `initialize_engine` throws. -/
def envThrowing (k : Nat) : Env :=
  { initThrowAt := some k, duringWait := [], duringStop := [], late := [] }

/-- The engine left by a successful `initialize_engine`. -/
def readyEngine : Engine :=
  { options := [setOptionCommand (bytes "Threads") (bytes "1"),
      setOptionCommand (bytes "Hash") (bytes "32")]
    on_bestmove := Callback.noop, position := none, movetime := none, searching := false }

/-- The globals left by a successful `initialize_engine`. -/
def readyGlobals : Globals := { initFlag := true, engine := some readyEngine, initSucceeded := true }

/-- The globals left by a failed `initialize_engine`. -/
def failedGlobals : Globals := { initFlag := true, engine := none, initSucceeded := false }

/-- A move of `2^32 + 4` bytes, all of them the letter a. -/
def hugeMove : Str := List.replicate 4294967300 97

/-- A move of `2^31` bytes, all of them the letter a. -/
def bigMove : Str := List.replicate 2147483648 97

/-- A first call during which construction of the engine throws. -/
def throwingCall : Call :=
  { env := envThrowing 2, fen := some startFen, skill_level := 10, move_time_ms := 100,
    out_move := some [7, 7, 7, 7, 7, 7, 7, 7], out_move_capacity := 8 }

/-- A call with valid arguments and an engine that would answer `e2e4`. -/
def validCall : Call :=
  { env := envOf [bytes "e2e4"] [], fen := some startFen, skill_level := 10,
    move_time_ms := 100, out_move := some [7, 7, 7, 7, 7, 7, 7, 7], out_move_capacity := 8 }

/-! ## The request-local state after callback invocations -/

theorem foldl_on_bestmove_engine (moves : List Str) (r : Run) :
    (moves.foldl Run.on_bestmove r).engine = r.engine := by
  induction moves generalizing r with
  | nil => rfl
  | cons m ms ih => simp [List.foldl, ih, Run.on_bestmove]

theorem foldl_on_bestmove_trace (moves : List Str) (r : Run) :
    (moves.foldl Run.on_bestmove r).trace = r.trace := by
  induction moves generalizing r with
  | nil => rfl
  | cons m ms ih => simp [List.foldl, ih, Run.on_bestmove]

theorem foldl_on_bestmove_done (moves : List Str) (r : Run) :
    (moves.foldl Run.on_bestmove r).done = (r.done || !moves.isEmpty) := by
  induction moves generalizing r with
  | nil => simp
  | cons m ms ih => simp [List.foldl, ih, Run.on_bestmove]

theorem foldl_on_bestmove_bestMove (moves : List Str) (r : Run) :
    (moves.foldl Run.on_bestmove r).bestMove = moves.getLast?.getD r.bestMove := by
  induction moves generalizing r with
  | nil => simp
  | cons m ms ih =>
    rw [List.foldl, ih]
    cases ms with
    | nil => simp [Run.on_bestmove]
    | cons a as => simp [List.getLast?_eq_getLast _ (List.cons_ne_nil a as)]

theorem search_trace (env : Env) (e : Engine) (fen : Str) (s t : Int) :
    (search env e fen s t).trace = searchTrace fen s t := by
  simp [search, searchTrace, Run.log, Run.issue, Run.callbacks, Engine.apply,
    foldl_on_bestmove_engine, foldl_on_bestmove_trace]

theorem search_engine (env : Env) (e : Engine) (fen : Str) (s t : Int) :
    (search env e fen s t).engine =
      { options := e.options ++
          [setOptionCommand (bytes "Skill Level") (to_string (clampedSkill s))]
        on_bestmove := Callback.noop
        position := some fen
        movetime := some (clampedMoveTime t)
        searching := false } := by
  simp [search, Run.log, Run.issue, Run.callbacks, Engine.apply,
    foldl_on_bestmove_engine, foldl_on_bestmove_trace]

theorem search_done (env : Env) (e : Engine) (fen : Str) (s t : Int) :
    (search env e fen s t).done = !(env.duringWait ++ env.duringStop).isEmpty := by
  simp [search, Run.log, Run.issue, Run.callbacks, Engine.apply,
    foldl_on_bestmove_engine, foldl_on_bestmove_trace, foldl_on_bestmove_done]
  cases env.duringWait <;> simp

theorem search_bestMove (env : Env) (e : Engine) (fen : Str) (s t : Int) :
    (search env e fen s t).bestMove = (env.duringWait ++ env.duringStop).getLast?.getD [] := by
  simp [search, Run.log, Run.issue, Run.callbacks, Engine.apply,
    foldl_on_bestmove_engine, foldl_on_bestmove_trace, foldl_on_bestmove_bestMove]
  cases env.duringStop.getLast? <;> simp

/-! ## Result determination -/

theorem toInt32_of_isInt32 (x : Int) (h : isInt32 x) : toInt32 x = x := by
  unfold isInt32 at h
  unfold toInt32
  omega

/-- When `size + 1` fits in `int32_t`, line 123 compares the exact value. -/
theorem sizePlusOne_exact (m : Str) (h : (m.length : Int) + 1 ≤ 2147483647) :
    sizePlusOne m = (m.length : Int) + 1 := by
  unfold sizePlusOne toInt32
  omega

theorem determine_ret_cases (r : Run) (g : Globals) (buf : List Nat) (cap : Int) :
    (determine r g buf cap).ret = 0 ∨ (determine r g buf cap).ret = 1 := by
  unfold determine
  split
  · exact Or.inl rfl
  · split
    · exact Or.inl rfl
    · exact Or.inr rfl

/-- The exact condition under which `determine` reports success. -/
theorem determine_ret_one_iff (r : Run) (g : Globals) (buf : List Nat) (cap : Int) :
    (determine r g buf cap).ret = 1 ↔
      r.done = true ∧ r.bestMove ≠ [] ∧ r.bestMove ≠ noneToken ∧
        ¬ sizePlusOne r.bestMove > cap := by
  unfold determine
  split
  · rename_i h
    constructor
    · intro h1
      simp at h1
    · rintro ⟨h1, h2, h3, _⟩
      rcases h with h | h | h
      · simp [h1] at h
      · exact absurd h h2
      · exact absurd h h3
  · rename_i h
    have hd : r.done = true := by
      cases hdone : r.done
      · exact absurd (Or.inl hdone) h
      · rfl
    have h2 : r.bestMove ≠ [] := fun h2 => h (Or.inr (Or.inl h2))
    have h3 : r.bestMove ≠ noneToken := fun h3 => h (Or.inr (Or.inr h3))
    split
    · rename_i hc
      constructor
      · intro h1
        simp at h1
      · rintro ⟨_, _, _, h4⟩
        exact absurd hc h4
    · rename_i hc
      constructor
      · intro _
        exact ⟨hd, h2, h3, hc⟩
      · intro _
        rfl

/-- On failure `determine` leaves the memory at `out_move` as it was and copies nothing. -/
theorem determine_fail (r : Run) (g : Globals) (buf : List Nat) (cap : Int)
    (h : (determine r g buf cap).ret ≠ 1) :
    determine r g buf cap =
      { ret := 0, out := some buf, globals := { g with engine := some r.engine },
        trace := r.trace ++ [Event.unlock_engineMutex] } := by
  unfold determine at h ⊢
  split
  · rfl
  · split
    · rfl
    · rename_i h1 h2
      simp [h1, h2] at h

/-- On success `determine` copies `bestMove` and its terminator, then returns. -/
theorem determine_success (r : Run) (g : Globals) (buf : List Nat) (cap : Int)
    (h : (determine r g buf cap).ret = 1) :
    determine r g buf cap =
      { ret := 1, out := some (memcpy buf (c_str r.bestMove) (r.bestMove.length + 1)),
        globals := { g with engine := some r.engine },
        trace := r.trace ++ [Event.memcpy_out (c_str r.bestMove) (r.bestMove.length + 1),
          Event.unlock_engineMutex] } := by
  unfold determine at h ⊢
  split
  · rename_i h1
    simp [h1] at h
  · split
    · rename_i h1 h2
      simp [h1, h2] at h
    · rfl

/-- After the copy, the memory at `out_move` starts with the move and its terminator. -/
theorem memcpy_c_str_take (buf : List Nat) (m : Str) :
    (memcpy buf (c_str m) (m.length + 1)).take (m.length + 1) = m ++ [0] := by
  have hlen : (m ++ [0]).length = m.length + 1 := by simp
  unfold memcpy c_str
  rw [← hlen, List.take_length, List.take_left]

/-- A call that passes validation and finds the engine initialized runs `search` and
`determine`. -/
theorem bestmove_of_ready (env : Env) (g : Globals) (p : Str) (s t : Int) (buf : List Nat)
    (cap : Int) (e : Engine) (hcap : 2 ≤ cap)
    (hinit : (call_once env.initThrowAt g).1.initSucceeded = true)
    (heng : (call_once env.initThrowAt g).1.engine = some e) :
    gc_stockfish_bestmove env g (some p) s t (some buf) cap =
      { determine (search env e p s t) (call_once env.initThrowAt g).1 buf cap with
        trace := (call_once env.initThrowAt g).2 ++
          (determine (search env e p s t) (call_once env.initThrowAt g).1 buf cap).trace } := by
  have hc : ¬ cap ≤ 1 := by omega
  simp [gc_stockfish_bestmove, hc, hinit, heng]

/-- A call that passes validation but finds the engine unavailable returns at line 77. -/
theorem bestmove_of_unavailable (env : Env) (g : Globals) (p : Str) (s t : Int)
    (buf : List Nat) (cap : Int) (hcap : 2 ≤ cap)
    (h : (call_once env.initThrowAt g).1.initSucceeded = false ∨
      (call_once env.initThrowAt g).1.engine = none) :
    gc_stockfish_bestmove env g (some p) s t (some buf) cap =
      { ret := 0, out := some buf, globals := (call_once env.initThrowAt g).1,
        trace := (call_once env.initThrowAt g).2 } := by
  have hc : ¬ cap ≤ 1 := by omega
  rcases h with h | h
  · simp [gc_stockfish_bestmove, hc, h]
  · cases hs : (call_once env.initThrowAt g).1.initSucceeded <;>
      simp [gc_stockfish_bestmove, hc, h, hs]

/-- A call rejected by the validation of line 69 does nothing. -/
theorem bestmove_of_invalid (env : Env) (g : Globals) (fen : Option Str) (s t : Int)
    (out : Option (List Nat)) (cap : Int) (h : fen = none ∨ out = none ∨ cap ≤ 1) :
    gc_stockfish_bestmove env g fen s t out cap =
      { ret := 0, out := out, globals := g, trace := [] } := by
  unfold gc_stockfish_bestmove
  cases fen with
  | none => cases out <;> rfl
  | some p =>
    cases out with
    | none => rfl
    | some buf =>
      have hc : cap ≤ 1 := by
        rcases h with h | h | h
        · cases h
        · cases h
        · exact h
      simp [hc]

theorem call_once_initial_ok : call_once none Globals.initial = (readyGlobals, Event.initialize_engine :: initBody) := by
  decide

theorem bestmove_ret_of_ready (env : Env) (g : Globals) (p : Str) (s t : Int) (buf : List Nat)
    (cap : Int) (e : Engine) (hcap : 2 ≤ cap)
    (hinit : (call_once env.initThrowAt g).1.initSucceeded = true)
    (heng : (call_once env.initThrowAt g).1.engine = some e) :
    (gc_stockfish_bestmove env g (some p) s t (some buf) cap).ret =
      (determine (search env e p s t) (call_once env.initThrowAt g).1 buf cap).ret := by
  rw [bestmove_of_ready env g p s t buf cap e hcap hinit heng]

theorem bestmove_out_of_ready (env : Env) (g : Globals) (p : Str) (s t : Int) (buf : List Nat)
    (cap : Int) (e : Engine) (hcap : 2 ≤ cap)
    (hinit : (call_once env.initThrowAt g).1.initSucceeded = true)
    (heng : (call_once env.initThrowAt g).1.engine = some e) :
    (gc_stockfish_bestmove env g (some p) s t (some buf) cap).out =
      (determine (search env e p s t) (call_once env.initThrowAt g).1 buf cap).out := by
  rw [bestmove_of_ready env g p s t buf cap e hcap hinit heng]

theorem bestmove_trace_of_ready (env : Env) (g : Globals) (p : Str) (s t : Int)
    (buf : List Nat) (cap : Int) (e : Engine) (hcap : 2 ≤ cap)
    (hinit : (call_once env.initThrowAt g).1.initSucceeded = true)
    (heng : (call_once env.initThrowAt g).1.engine = some e) :
    (gc_stockfish_bestmove env g (some p) s t (some buf) cap).trace =
      (call_once env.initThrowAt g).2 ++
        (determine (search env e p s t) (call_once env.initThrowAt g).1 buf cap).trace := by
  rw [bestmove_of_ready env g p s t buf cap e hcap hinit heng]

theorem bestmove_globals_of_ready (env : Env) (g : Globals) (p : Str) (s t : Int)
    (buf : List Nat) (cap : Int) (e : Engine) (hcap : 2 ≤ cap)
    (hinit : (call_once env.initThrowAt g).1.initSucceeded = true)
    (heng : (call_once env.initThrowAt g).1.engine = some e) :
    (gc_stockfish_bestmove env g (some p) s t (some buf) cap).globals =
      { (call_once env.initThrowAt g).1 with engine := some (search env e p s t).engine } := by
  rw [bestmove_of_ready env g p s t buf cap e hcap hinit heng]
  simp [determine]
  split <;> try split
  all_goals rfl

/-! ## Result determination and buffer safety (C1, C2) -/

/-- Result determination for moves whose size plus one fits in `int32_t`: the call
returns 1 exactly when `done` is set, the move is neither empty nor `"(none)"` and fits
with its terminator, and then the output starts with the move and a terminator;
otherwise it returns 0 and the output is unchanged. -/
theorem result_determination_in_range (env : Env) (g : Globals) (p : Str) (s t : Int)
    (buf : List Nat) (cap : Int) (e : Engine) (hcap : 2 ≤ cap)
    (hinit : (call_once env.initThrowAt g).1.initSucceeded = true)
    (heng : (call_once env.initThrowAt g).1.engine = some e)
    (hfit : ((search env e p s t).bestMove.length : Int) + 1 ≤ 2147483647) :
    ((gc_stockfish_bestmove env g (some p) s t (some buf) cap).ret = 1 ↔
      (search env e p s t).done = true ∧ (search env e p s t).bestMove ≠ [] ∧
        (search env e p s t).bestMove ≠ noneToken ∧
        ((search env e p s t).bestMove.length : Int) + 1 ≤ cap) ∧
    ((gc_stockfish_bestmove env g (some p) s t (some buf) cap).ret = 1 →
      ∃ mem, (gc_stockfish_bestmove env g (some p) s t (some buf) cap).out = some mem ∧
        mem.take ((search env e p s t).bestMove.length + 1) =
          (search env e p s t).bestMove ++ [0]) ∧
    ((gc_stockfish_bestmove env g (some p) s t (some buf) cap).ret ≠ 1 →
      (gc_stockfish_bestmove env g (some p) s t (some buf) cap).ret = 0 ∧
        (gc_stockfish_bestmove env g (some p) s t (some buf) cap).out = some buf) := by
  rw [bestmove_of_ready env g p s t buf cap e hcap hinit heng]
  refine ⟨?_, ?_, ?_⟩
  · show (determine _ _ buf cap).ret = 1 ↔ _
    rw [determine_ret_one_iff, sizePlusOne_exact _ hfit]
    constructor
    · rintro ⟨h1, h2, h3, h4⟩
      exact ⟨h1, h2, h3, by omega⟩
    · rintro ⟨h1, h2, h3, h4⟩
      exact ⟨h1, h2, h3, by omega⟩
  · intro h
    have h1 : (determine (search env e p s t) (call_once env.initThrowAt g).1 buf cap).ret = 1 := h
    refine ⟨memcpy buf (c_str (search env e p s t).bestMove)
      ((search env e p s t).bestMove.length + 1), ?_, memcpy_c_str_take _ _⟩
    show (determine _ _ buf cap).out = _
    rw [determine_success _ _ _ _ h1]
  · intro h
    have h1 : (determine (search env e p s t) (call_once env.initThrowAt g).1 buf cap).ret ≠ 1 := h
    constructor
    · show (determine _ _ buf cap).ret = 0
      rw [determine_fail _ _ _ _ h1]
    · show (determine _ _ buf cap).out = _
      rw [determine_fail _ _ _ _ h1]

theorem hugeMove_length : hugeMove.length = 4294967300 := List.length_replicate _ _

theorem bigMove_length : bigMove.length = 2147483648 := List.length_replicate _ _

theorem noneToken_length : noneToken.length = 6 := by decide

theorem hugeMove_accepted (g : Globals) (buf : List Nat) (e : Engine) (p : Str) (s t : Int) :
    (determine (search (envOf [hugeMove] []) e p s t) g buf 8).ret = 1 := by
  rw [determine_ret_one_iff, search_done, search_bestMove]
  have hne : hugeMove ≠ [] := by
    intro h
    have := congrArg List.length h
    rw [hugeMove_length] at this
    simp at this
  have hnt : hugeMove ≠ noneToken := by
    intro h
    have := congrArg List.length h
    rw [hugeMove_length, noneToken_length] at this
    omega
  have hsz : sizePlusOne hugeMove = 5 := by
    unfold sizePlusOne toInt32
    rw [hugeMove_length]
    norm_num
  refine ⟨by simp [envOf], by simpa [envOf] using hne, by simpa [envOf] using hnt, ?_⟩
  simp only [envOf, List.nil_append, List.append_nil, List.getLast?_singleton, Option.getD_some]
  rw [hsz]
  norm_num

/-- C1, at the failing input: the engine reports a move of `2^32 + 4` bytes while the
caller's buffer has capacity 8.  Line 123 truncates the size to 4, so the call returns
1 although the move and its terminator do not fit. -/
theorem bestmove_accepts_move_longer_than_capacity :
    (gc_stockfish_bestmove (envOf [hugeMove] []) Globals.initial (some startFen) 10 100
        (some [0, 0, 0, 0, 0, 0, 0, 0]) 8).ret = 1 ∧
      ¬ ((hugeMove.length : Int) + 1 ≤ 8) := by
  constructor
  · have hcall : call_once (envOf [hugeMove] []).initThrowAt Globals.initial =
        (readyGlobals, Event.initialize_engine :: initBody) := call_once_initial_ok
    have h2 : (2 : Int) ≤ 8 := by norm_num
    have hi : (call_once (envOf [hugeMove] []).initThrowAt Globals.initial).1.initSucceeded
        = true := by rw [hcall]; rfl
    have he : (call_once (envOf [hugeMove] []).initThrowAt Globals.initial).1.engine
        = some readyEngine := by rw [hcall]; rfl
    rw [bestmove_ret_of_ready _ _ _ _ _ _ _ _ h2 hi he]
    exact hugeMove_accepted _ _ _ _ _ _
  · rw [hugeMove_length]
    norm_num

theorem search_single (m : Str) (e : Engine) (p : Str) (s t : Int) :
    (search (envOf [m] []) e p s t).done = true ∧
      (search (envOf [m] []) e p s t).bestMove = m := by
  rw [search_done, search_bestMove]
  simp only [envOf, List.append_nil, List.getLast?_singleton, Option.getD_some]
  exact ⟨rfl, trivial⟩

theorem bigMove_accepted (g : Globals) (buf : List Nat) (e : Engine) (p : Str) (s t : Int) :
    (determine (search (envOf [bigMove] []) e p s t) g buf 2).ret = 1 := by
  rw [determine_ret_one_iff, (search_single bigMove e p s t).1,
    (search_single bigMove e p s t).2]
  have hne : bigMove ≠ [] := by
    intro h
    have := congrArg List.length h
    rw [bigMove_length] at this
    simp at this
  have hnt : bigMove ≠ noneToken := by
    intro h
    have := congrArg List.length h
    rw [bigMove_length, noneToken_length] at this
    omega
  have hsz : sizePlusOne bigMove = -2147483647 := by
    unfold sizePlusOne toInt32
    rw [bigMove_length]
    norm_num
  refine ⟨rfl, hne, hnt, ?_⟩
  rw [hsz]
  norm_num

/-- C2, at the failing input: the engine reports a move of `2^31` bytes while the
caller's buffer has capacity 2.  Line 123 converts the size to a negative `int32_t`, so
`2^31 + 1` bytes are copied to `out_move` although they do not fit. -/
theorem bestmove_copies_beyond_capacity :
    Event.memcpy_out (c_str bigMove) 2147483649 ∈
        (gc_stockfish_bestmove (envOf [bigMove] []) Globals.initial (some startFen) 10 100
          (some [0, 0]) 2).trace ∧
      ¬ ((bigMove.length : Int) + 1 ≤ 2) := by
  constructor
  · have hcall : call_once (envOf [bigMove] []).initThrowAt Globals.initial =
        (readyGlobals, Event.initialize_engine :: initBody) := call_once_initial_ok
    have h2 : (2 : Int) ≤ 2 := le_refl _
    have hi : (call_once (envOf [bigMove] []).initThrowAt Globals.initial).1.initSucceeded
        = true := by rw [hcall]; rfl
    have he : (call_once (envOf [bigMove] []).initThrowAt Globals.initial).1.engine
        = some readyEngine := by rw [hcall]; rfl
    rw [bestmove_trace_of_ready _ _ _ _ _ _ _ _ h2 hi he,
      determine_success _ _ _ _ (bigMove_accepted _ _ _ _ _ _),
      (search_single bigMove readyEngine startFen 10 100).2, bigMove_length]
    exact List.mem_append_right _ (List.mem_append_right _ (List.mem_cons_self _ _))
  · rw [bigMove_length]
    norm_num

/-! ## Failure writes nothing -/

theorem runTry_trace_subset (throwAt : Option Nat) (body : List Event) (i : Nat) (g : Globals) :
    ∀ ev ∈ (runTry throwAt i body g).2.1, ev ∈ body := by
  induction body generalizing i g with
  | nil => intro ev h; simp [runTry] at h
  | cons b rest ih =>
    intro ev h
    unfold runTry at h
    split at h
    · simp at h
      simp [h]
    · simp only [List.mem_cons] at h
      rcases h with h | h
      · simp [h]
      · exact List.mem_cons_of_mem _ (ih _ _ ev h)

theorem initialize_engine_trace (throwAt : Option Nat) (g : Globals) :
    (initialize_engine throwAt g).2 = (runTry throwAt 0 initBody g).2.1 := by
  simp only [initialize_engine]
  split <;> rfl

theorem call_once_trace_subset (throwAt : Option Nat) (g : Globals) :
    ∀ ev ∈ (call_once throwAt g).2, ev ∈ Event.initialize_engine :: initBody := by
  intro ev h
  unfold call_once at h
  split at h
  · simp at h
  · simp only [List.mem_cons] at h
    rcases h with h | h
    · simp [h]
    · apply List.mem_cons_of_mem
      rw [initialize_engine_trace] at h
      exact runTry_trace_subset _ _ _ _ ev h

theorem call_once_no_memcpy (throwAt : Option Nat) (g : Globals) (src : List Nat) (n : Nat) :
    Event.memcpy_out src n ∉ (call_once throwAt g).2 := by
  intro h
  have := call_once_trace_subset throwAt g _ h
  simp [initBody] at this

theorem searchTrace_no_memcpy (p : Str) (s t : Int) (src : List Nat) (n : Nat) :
    Event.memcpy_out src n ∉ searchTrace p s t := by
  simp [searchTrace]

/-- Whenever a call does not return 1 it returns 0, the memory at `out_move` is what it
was before the call, and no copy was made. -/
theorem failure_writes_nothing (env : Env) (g : Globals) (fen : Option Str) (s t : Int)
    (out : Option (List Nat)) (cap : Int)
    (h : (gc_stockfish_bestmove env g fen s t out cap).ret ≠ 1) :
    (gc_stockfish_bestmove env g fen s t out cap).ret = 0 ∧
      (gc_stockfish_bestmove env g fen s t out cap).out = out ∧
      ∀ src n, Event.memcpy_out src n ∉ (gc_stockfish_bestmove env g fen s t out cap).trace := by
  by_cases hv : fen = none ∨ out = none ∨ cap ≤ 1
  · rw [bestmove_of_invalid env g fen s t out cap hv]
    simp
  · obtain ⟨p, rfl⟩ : ∃ p, fen = some p := by
      cases fen with
      | none => exact absurd (Or.inl rfl) hv
      | some p => exact ⟨p, rfl⟩
    obtain ⟨buf, rfl⟩ : ∃ buf, out = some buf := by
      cases out with
      | none => exact absurd (Or.inr (Or.inl rfl)) hv
      | some buf => exact ⟨buf, rfl⟩
    have hcap : 2 ≤ cap := by
      have : ¬ cap ≤ 1 := fun hc => hv (Or.inr (Or.inr hc))
      omega
    by_cases hu : (call_once env.initThrowAt g).1.initSucceeded = false ∨
        (call_once env.initThrowAt g).1.engine = none
    · rw [bestmove_of_unavailable env g p s t buf cap hcap hu]
      refine ⟨rfl, rfl, ?_⟩
      intro src n
      exact call_once_no_memcpy _ _ _ _
    · have hinit : (call_once env.initThrowAt g).1.initSucceeded = true := by
        cases hs : (call_once env.initThrowAt g).1.initSucceeded
        · exact absurd (Or.inl hs) hu
        · rfl
      obtain ⟨e, heng⟩ : ∃ e, (call_once env.initThrowAt g).1.engine = some e := by
        cases he : (call_once env.initThrowAt g).1.engine with
        | none => exact absurd (Or.inr he) hu
        | some e => exact ⟨e, rfl⟩
      rw [bestmove_ret_of_ready env g p s t buf cap e hcap hinit heng] at h
      rw [bestmove_ret_of_ready env g p s t buf cap e hcap hinit heng,
        bestmove_out_of_ready env g p s t buf cap e hcap hinit heng,
        bestmove_trace_of_ready env g p s t buf cap e hcap hinit heng,
        determine_fail _ _ _ _ h]
      refine ⟨rfl, rfl, ?_⟩
      intro src n hmem
      simp only [List.mem_append, List.mem_singleton] at hmem
      rcases hmem with hmem | hmem | hmem
      · exact call_once_no_memcpy _ _ _ _ hmem
      · rw [search_trace] at hmem
        exact searchTrace_no_memcpy _ _ _ _ _ hmem
      · cases hmem

/-- A call returns 1 only after passing validation, finding the engine available, and
having `determine` accept the recorded move. -/
theorem ret_one_inversion (env : Env) (g : Globals) (fen : Option Str) (s t : Int)
    (out : Option (List Nat)) (cap : Int)
    (h : (gc_stockfish_bestmove env g fen s t out cap).ret = 1) :
    ∃ p buf e, fen = some p ∧ out = some buf ∧ 2 ≤ cap ∧
      (call_once env.initThrowAt g).1.initSucceeded = true ∧
      (call_once env.initThrowAt g).1.engine = some e ∧
      (determine (search env e p s t) (call_once env.initThrowAt g).1 buf cap).ret = 1 := by
  by_cases hv : fen = none ∨ out = none ∨ cap ≤ 1
  · rw [bestmove_of_invalid env g fen s t out cap hv] at h
    simp at h
  · obtain ⟨p, rfl⟩ : ∃ p, fen = some p := by
      cases fen with
      | none => exact absurd (Or.inl rfl) hv
      | some p => exact ⟨p, rfl⟩
    obtain ⟨buf, rfl⟩ : ∃ buf, out = some buf := by
      cases out with
      | none => exact absurd (Or.inr (Or.inl rfl)) hv
      | some buf => exact ⟨buf, rfl⟩
    have hcap : 2 ≤ cap := by
      have : ¬ cap ≤ 1 := fun hc => hv (Or.inr (Or.inr hc))
      omega
    by_cases hu : (call_once env.initThrowAt g).1.initSucceeded = false ∨
        (call_once env.initThrowAt g).1.engine = none
    · rw [bestmove_of_unavailable env g p s t buf cap hcap hu] at h
      simp at h
    · have hinit : (call_once env.initThrowAt g).1.initSucceeded = true := by
        cases hs : (call_once env.initThrowAt g).1.initSucceeded
        · exact absurd (Or.inl hs) hu
        · rfl
      obtain ⟨e, heng⟩ : ∃ e, (call_once env.initThrowAt g).1.engine = some e := by
        cases he : (call_once env.initThrowAt g).1.engine with
        | none => exact absurd (Or.inr he) hu
        | some e => exact ⟨e, rfl⟩
      rw [bestmove_ret_of_ready env g p s t buf cap e hcap hinit heng] at h
      exact ⟨p, buf, e, rfl, rfl, hcap, hinit, heng, h⟩

/-! ## Validation (C9, C3) -/

/-- C9: if the position pointer is null, or `out_move` is null, or `out_move_capacity`
is below 2, the call returns 0 whatever the engine would answer, the output is
untouched, the globals are unchanged and nothing at all is done (no initialization, no
lock, no engine operation). -/
theorem unusable_arguments_rejected (env : Env) (g : Globals) (fen : Option Str) (s t : Int)
    (out : Option (List Nat)) (cap : Int) (h : fen = none ∨ out = none ∨ cap < 2) :
    (gc_stockfish_bestmove env g fen s t out cap).ret = 0 ∧
      (gc_stockfish_bestmove env g fen s t out cap).out = out ∧
      (gc_stockfish_bestmove env g fen s t out cap).globals = g ∧
      (gc_stockfish_bestmove env g fen s t out cap).trace = [] := by
  have hv : fen = none ∨ out = none ∨ cap ≤ 1 := by
    rcases h with h | h | h
    · exact Or.inl h
    · exact Or.inr (Or.inl h)
    · exact Or.inr (Or.inr (by omega))
  rw [bestmove_of_invalid env g fen s t out cap hv]
  exact ⟨rfl, rfl, rfl, rfl⟩

/-- C9, witness: a valid position and an engine that answers `e2e4`, with capacity 1. -/
theorem unusable_arguments_rejected_witness :
    ((some startFen : Option Str) = none ∨ (some [7] : Option (List Nat)) = none ∨
        (1 : Int) < 2) ∧
      (gc_stockfish_bestmove (envOf [bytes "e2e4"] []) Globals.initial (some startFen) 10 100
        (some [7]) 1).ret = 0 ∧
      (gc_stockfish_bestmove (envOf [bytes "e2e4"] []) Globals.initial (some startFen) 10 100
        (some [7]) 1).out = some [7] ∧
      (gc_stockfish_bestmove (envOf [bytes "e2e4"] []) Globals.initial (some startFen) 10 100
        (some [7]) 1).globals = Globals.initial ∧
      (gc_stockfish_bestmove (envOf [bytes "e2e4"] []) Globals.initial (some startFen) 10 100
        (some [7]) 1).trace = [] :=
  ⟨Or.inr (Or.inr (by decide)),
    unusable_arguments_rejected (envOf [bytes "e2e4"] []) Globals.initial (some startFen) 10 100
      (some [7]) 1 (Or.inr (Or.inr (by decide)))⟩

/-- C3, counterexample: with an empty, non-null position, a usable buffer and an engine
that answers `e2e4`, the call runs `initialize_engine`, sends the empty position to the
engine, returns 1 and overwrites the buffer. -/
theorem empty_position_reaches_engine :
    (gc_stockfish_bestmove (envOf [bytes "e2e4"] []) Globals.initial (some []) 10 100
        (some [7, 7, 7, 7, 7, 7, 7, 7]) 8).ret = 1 ∧
      (gc_stockfish_bestmove (envOf [bytes "e2e4"] []) Globals.initial (some []) 10 100
        (some [7, 7, 7, 7, 7, 7, 7, 7]) 8).out = some [101, 50, 101, 52, 0, 7, 7, 7] ∧
      Event.initialize_engine ∈
        (gc_stockfish_bestmove (envOf [bytes "e2e4"] []) Globals.initial (some []) 10 100
          (some [7, 7, 7, 7, 7, 7, 7, 7]) 8).trace ∧
      Event.engine (EngineOp.set_position []) ∈
        (gc_stockfish_bestmove (envOf [bytes "e2e4"] []) Globals.initial (some []) 10 100
          (some [7, 7, 7, 7, 7, 7, 7, 7]) 8).trace := by
  decide

theorem call_once_initFlag (throwAt : Option Nat) (g : Globals) :
    (call_once throwAt g).1.initFlag = true := by
  unfold call_once
  split
  · assumption
  · rfl

theorem set_position_mem_searchTrace (p : Str) (s t : Int) :
    Event.engine (EngineOp.set_position p) ∈ searchTrace p s t := by
  simp [searchTrace]

theorem determine_trace_shape (r : Run) (g : Globals) (buf : List Nat) (cap : Int) :
    (determine r g buf cap).trace = r.trace ++ [Event.unlock_engineMutex] ∨
      (determine r g buf cap).trace = r.trace ++
        [Event.memcpy_out (c_str r.bestMove) (r.bestMove.length + 1),
          Event.unlock_engineMutex] := by
  by_cases h : (determine r g buf cap).ret = 1
  · right
    rw [determine_success _ _ _ _ h]
  · left
    rw [determine_fail _ _ _ _ h]

/-- C3, amended: a null position is rejected at once, in every state and whatever the
engine would do, with the output untouched and no shared state touched.  An empty,
non-null position with usable output storage is not rejected: the call goes through
`call_once`, and when the engine is available the empty position is sent to the engine
and the result is determined from the engine's answer. -/
theorem null_position_rejected_empty_position_forwarded (env : Env) (g : Globals) (s t : Int)
    (buf : List Nat) (cap : Int) (e : Engine)
    (hcap : 2 ≤ cap)
    (hinit : (call_once env.initThrowAt g).1.initSucceeded = true)
    (heng : (call_once env.initThrowAt g).1.engine = some e) :
    (∀ (anyEnv : Env) (anyGlobals : Globals) (anySkill anyTime : Int)
        (out : Option (List Nat)) (anyCap : Int),
      gc_stockfish_bestmove anyEnv anyGlobals none anySkill anyTime out anyCap =
        { ret := 0, out := out, globals := anyGlobals, trace := [] }) ∧
      (gc_stockfish_bestmove env g (some []) s t (some buf) cap).globals.initFlag = true ∧
      Event.engine (EngineOp.set_position []) ∈
        (gc_stockfish_bestmove env g (some []) s t (some buf) cap).trace ∧
      (gc_stockfish_bestmove env g (some []) s t (some buf) cap).ret =
        (determine (search env e [] s t) (call_once env.initThrowAt g).1 buf cap).ret := by
  refine ⟨fun anyEnv anyGlobals anySkill anyTime out anyCap =>
      bestmove_of_invalid anyEnv anyGlobals none anySkill anyTime out anyCap (Or.inl rfl),
    ?_, ?_, bestmove_ret_of_ready env g [] s t buf cap e hcap hinit heng⟩
  · rw [bestmove_globals_of_ready env g [] s t buf cap e hcap hinit heng]
    exact call_once_initFlag _ _
  · rw [bestmove_trace_of_ready env g [] s t buf cap e hcap hinit heng]
    apply List.mem_append_right
    rcases determine_trace_shape (search env e [] s t) (call_once env.initThrowAt g).1 buf cap
      with h | h
    · rw [h, search_trace]
      exact List.mem_append_left _ (set_position_mem_searchTrace _ _ _)
    · rw [h, search_trace]
      exact List.mem_append_left _ (set_position_mem_searchTrace _ _ _)

/-- C3, amended, witness: the first call of a process, with an engine answering `e2e4`. -/
theorem null_position_rejected_empty_position_forwarded_witness :
    ((2 : Int) ≤ 8 ∧
      (call_once (envOf [bytes "e2e4"] []).initThrowAt Globals.initial).1.initSucceeded = true ∧
      (call_once (envOf [bytes "e2e4"] []).initThrowAt Globals.initial).1.engine =
        some readyEngine) ∧
      gc_stockfish_bestmove (envOf [bytes "e2e4"] []) Globals.initial none 10 100
          (some [7, 7, 7, 7, 7, 7, 7, 7]) 8 =
        { ret := 0, out := some [7, 7, 7, 7, 7, 7, 7, 7], globals := Globals.initial,
          trace := [] } ∧
      Event.engine (EngineOp.set_position []) ∈
        (gc_stockfish_bestmove (envOf [bytes "e2e4"] []) Globals.initial (some []) 10 100
          (some [7, 7, 7, 7, 7, 7, 7, 7]) 8).trace :=
  ⟨⟨by decide, by decide, by decide⟩,
    (null_position_rejected_empty_position_forwarded (envOf [bytes "e2e4"] []) Globals.initial
      10 100 [7, 7, 7, 7, 7, 7, 7, 7] 8 readyEngine
      (by decide) (by decide) (by decide)).1 (envOf [bytes "e2e4"] []) Globals.initial 10 100
        (some [7, 7, 7, 7, 7, 7, 7, 7]) 8,
    (null_position_rejected_empty_position_forwarded (envOf [bytes "e2e4"] []) Globals.initial
      10 100 [7, 7, 7, 7, 7, 7, 7, 7] 8 readyEngine
      (by decide) (by decide) (by decide)).2.2.1⟩

/-! ## Timeout (C4) -/

/-- C4, counterexample: the callback has not fired when the wait ends, the engine
answers `e2e4` while it is being stopped, and the call returns 1 and writes the move. -/
theorem timeout_then_answer_during_stop_succeeds :
    (envOf [] [bytes "e2e4"]).duringWait = [] ∧
      (gc_stockfish_bestmove (envOf [] [bytes "e2e4"]) Globals.initial (some startFen) 10 100
        (some [7, 7, 7, 7, 7, 7, 7, 7]) 8).ret = 1 ∧
      (gc_stockfish_bestmove (envOf [] [bytes "e2e4"]) Globals.initial (some startFen) 10 100
        (some [7, 7, 7, 7, 7, 7, 7, 7]) 8).out = some [101, 50, 101, 52, 0, 7, 7, 7] := by
  decide

/-- C4, amended: if the callback has fired neither by the end of the bounded wait nor
while the engine is stopped and quiesced, the call returns 0, the output is unchanged
and nothing is copied. -/
theorem timeout_without_answer_fails (env : Env) (g : Globals) (fen : Option Str) (s t : Int)
    (out : Option (List Nat)) (cap : Int) (hw : env.duringWait = [])
    (hs : env.duringStop = []) :
    (gc_stockfish_bestmove env g fen s t out cap).ret = 0 ∧
      (gc_stockfish_bestmove env g fen s t out cap).out = out ∧
      ∀ src n, Event.memcpy_out src n ∉ (gc_stockfish_bestmove env g fen s t out cap).trace := by
  apply failure_writes_nothing
  intro h
  obtain ⟨p, buf, e, _, _, _, _, _, hd⟩ := ret_one_inversion env g fen s t out cap h
  rw [determine_ret_one_iff, search_done, hw, hs] at hd
  simp at hd

/-- C4, amended, witness: an engine that never answers. -/
theorem timeout_without_answer_fails_witness :
    ((envOf [] []).duringWait = [] ∧ (envOf [] []).duringStop = []) ∧
      (gc_stockfish_bestmove (envOf [] []) Globals.initial (some startFen) 10 100
        (some [7, 7, 7, 7, 7, 7, 7, 7]) 8).ret = 0 ∧
      (gc_stockfish_bestmove (envOf [] []) Globals.initial (some startFen) 10 100
        (some [7, 7, 7, 7, 7, 7, 7, 7]) 8).out = some [7, 7, 7, 7, 7, 7, 7, 7] :=
  ⟨⟨rfl, rfl⟩,
    (timeout_without_answer_fails (envOf [] []) Globals.initial (some startFen) 10 100
      (some [7, 7, 7, 7, 7, 7, 7, 7]) 8 rfl rfl).1,
    (timeout_without_answer_fails (envOf [] []) Globals.initial (some startFen) 10 100
      (some [7, 7, 7, 7, 7, 7, 7, 7]) 8 rfl rfl).2.1⟩

/-! ## Stop, quiesce, reset (C6) -/

theorem searchTrace_ends (p : Str) (s t : Int) :
    searchTrace p s t = (searchTrace p s t).take 8 ++
      [Event.engine EngineOp.stop, Event.engine EngineOp.wait_for_search_finished,
        Event.engine (EngineOp.set_on_bestmove Callback.noop)] := by
  simp [searchTrace]

/-- Callback invocations that arrive after line 116 reach the empty lambda. -/
theorem search_late_irrelevant (env : Env) (late : List Str) (e : Engine) (p : Str)
    (s t : Int) :
    search { env with late := late } e p s t = search env e p s t := by
  simp [search, Run.log, Run.issue, Run.callbacks, Engine.apply, foldl_on_bestmove_engine]

/-- C6: in every call that gets past validation and initialization, whatever the
engine answers, the trace ends with `stop`, `wait_for_search_finished`, the
re-installation of the empty bestmove callback, and then only the copy (if any) and the
release of the lock; afterwards the engine is idle with the empty callback registered,
and callback invocations arriving later do not change the outcome. -/
theorem stop_quiesce_reset_on_every_outcome (env : Env) (g : Globals) (p : Str) (s t : Int)
    (buf : List Nat) (cap : Int) (e : Engine) (hcap : 2 ≤ cap)
    (hinit : (call_once env.initThrowAt g).1.initSucceeded = true)
    (heng : (call_once env.initThrowAt g).1.engine = some e) :
    (∃ pre post, (gc_stockfish_bestmove env g (some p) s t (some buf) cap).trace =
        pre ++ [Event.engine EngineOp.stop, Event.engine EngineOp.wait_for_search_finished,
          Event.engine (EngineOp.set_on_bestmove Callback.noop)] ++ post ∧
      (post = [Event.unlock_engineMutex] ∨
        ∃ src n, post = [Event.memcpy_out src n, Event.unlock_engineMutex])) ∧
    (∃ e2, (gc_stockfish_bestmove env g (some p) s t (some buf) cap).globals.engine = some e2 ∧
      e2.searching = false ∧ e2.on_bestmove = Callback.noop) ∧
    (∀ late, gc_stockfish_bestmove { env with late := late } g (some p) s t (some buf) cap =
      gc_stockfish_bestmove env g (some p) s t (some buf) cap) := by
  refine ⟨?_, ?_, ?_⟩
  · rw [bestmove_trace_of_ready env g p s t buf cap e hcap hinit heng]
    rcases determine_trace_shape (search env e p s t) (call_once env.initThrowAt g).1 buf cap
      with h | h
    · refine ⟨(call_once env.initThrowAt g).2 ++ (searchTrace p s t).take 8,
        [Event.unlock_engineMutex], ?_, Or.inl rfl⟩
      rw [h, search_trace]
      nth_rewrite 1 [searchTrace_ends p s t]
      simp only [List.append_assoc]
    · refine ⟨(call_once env.initThrowAt g).2 ++ (searchTrace p s t).take 8,
        [Event.memcpy_out (c_str (search env e p s t).bestMove)
          ((search env e p s t).bestMove.length + 1), Event.unlock_engineMutex], ?_,
        Or.inr ⟨_, _, rfl⟩⟩
      rw [h, search_trace]
      nth_rewrite 1 [searchTrace_ends p s t]
      simp only [List.append_assoc]
  · refine ⟨(search env e p s t).engine, ?_, ?_, ?_⟩
    · rw [bestmove_globals_of_ready env g p s t buf cap e hcap hinit heng]
    · rw [search_engine]
    · rw [search_engine]
  · intro late
    rw [bestmove_of_ready { env with late := late } g p s t buf cap e hcap hinit heng,
      bestmove_of_ready env g p s t buf cap e hcap hinit heng, search_late_irrelevant]

/-- C6, witness: a first call whose wait times out and whose engine never answers. -/
theorem stop_quiesce_reset_on_every_outcome_witness :
    ((2 : Int) ≤ 8 ∧
      (call_once (envOf [] []).initThrowAt Globals.initial).1.initSucceeded = true ∧
      (call_once (envOf [] []).initThrowAt Globals.initial).1.engine = some readyEngine) ∧
    ∃ e2, (gc_stockfish_bestmove (envOf [] []) Globals.initial (some startFen) 10 100
        (some [7, 7, 7, 7, 7, 7, 7, 7]) 8).globals.engine = some e2 ∧
      e2.searching = false ∧ e2.on_bestmove = Callback.noop :=
  ⟨⟨by decide, by decide, by decide⟩,
    (stop_quiesce_reset_on_every_outcome (envOf [] []) Globals.initial startFen 10 100
      [7, 7, 7, 7, 7, 7, 7, 7] 8 readyEngine (by decide) (by decide) (by decide)).2.1⟩

/-! ## The wait ceiling (C7) -/

/-- The wait ceiling is the clamped budget plus 500 and exceeds the movetime, as long
as the sum fits in `int`. -/
theorem wait_ceiling_in_range (t : Int) (h : t ≤ 2147483147) :
    waitCeiling t = clampedMoveTime t + 500 ∧ clampedMoveTime t < waitCeiling t := by
  unfold waitCeiling clampedMoveTime max32 toInt32
  split <;> omega

/-- C7, at the failing input `move_time_ms = 2147483647`: the movetime handed to the
engine is 2147483647, the sum `clampedMoveTime + 500` wraps, and the wait of line 111 is
for -2147483149 ms, which is neither the clamped budget plus 500 nor greater than the
movetime. -/
theorem wait_ceiling_wraps_at_int32_max :
    isInt32 2147483647 ∧
      clampedMoveTime 2147483647 = 2147483647 ∧
      waitCeiling 2147483647 = -2147483149 ∧
      waitCeiling 2147483647 ≠ clampedMoveTime 2147483647 + 500 ∧
      ¬ (clampedMoveTime 2147483647 < waitCeiling 2147483647) ∧
      Event.wait_for (-2147483149) ∈
        (gc_stockfish_bestmove (envOf [] [bytes "e2e4"]) Globals.initial (some startFen) 10
          2147483647 (some [7, 7, 7, 7, 7, 7, 7, 7]) 8).trace := by
  decide

/-! ## Clamping (C8) -/

theorem go_mem_searchTrace (p : Str) (s t : Int) :
    Event.engine (EngineOp.go (clampedMoveTime t)) ∈ searchTrace p s t := by
  simp [searchTrace]

theorem skill_mem_searchTrace (p : Str) (s t : Int) :
    Event.engine (EngineOp.setoption
      (setOptionCommand (bytes "Skill Level") (to_string (clampedSkill s)))) ∈
        searchTrace p s t := by
  simp [searchTrace]

theorem mem_trace_of_mem_searchTrace (env : Env) (g : Globals) (p : Str) (s t : Int)
    (buf : List Nat) (cap : Int) (e : Engine) (hcap : 2 ≤ cap)
    (hinit : (call_once env.initThrowAt g).1.initSucceeded = true)
    (heng : (call_once env.initThrowAt g).1.engine = some e) (ev : Event)
    (h : ev ∈ searchTrace p s t) :
    ev ∈ (gc_stockfish_bestmove env g (some p) s t (some buf) cap).trace := by
  rw [bestmove_trace_of_ready env g p s t buf cap e hcap hinit heng]
  apply List.mem_append_right
  rcases determine_trace_shape (search env e p s t) (call_once env.initThrowAt g).1 buf cap
    with h1 | h1
  · rw [h1, search_trace]
    exact List.mem_append_left _ h
  · rw [h1, search_trace]
    exact List.mem_append_left _ h

/-- The run of `search` depends on the parameters only through their clamped values. -/
theorem search_congr (env : Env) (e : Engine) (p : Str) (s t s2 t2 : Int)
    (hs : clampedSkill s2 = clampedSkill s) (ht : clampedMoveTime t2 = clampedMoveTime t) :
    search env e p s2 t2 = search env e p s t := by
  unfold search waitCeiling
  rw [hs, ht]

theorem clampedSkill_range (s : Int) : 0 ≤ clampedSkill s ∧ clampedSkill s ≤ 20 := by
  unfold clampedSkill clamp
  split
  · omega
  · split <;> omega

/-- The command built at line 88, byte by byte: the text `name Skill Level value `
followed by the one or two decimal digits of the clamped skill level. -/
theorem skill_command_bytes (s : Int) :
    setOptionCommand (bytes "Skill Level") (to_string (clampedSkill s)) =
      [110, 97, 109, 101, 32, 83, 107, 105, 108, 108, 32, 76, 101, 118, 101, 108, 32,
        118, 97, 108, 117, 101, 32] ++
      (if clampedSkill s < 10 then [48 + (clampedSkill s).toNat]
        else [48 + (clampedSkill s).toNat / 10, 48 + (clampedSkill s).toNat % 10]) := by
  obtain ⟨h0, h20⟩ := clampedSkill_range s
  obtain ⟨v, hv⟩ : ∃ v : Nat, clampedSkill s = (v : Int) := ⟨(clampedSkill s).toNat, by omega⟩
  rw [hv] at h20 ⊢
  have hle : v ≤ 20 := by omega
  clear hv h0 h20
  interval_cases v <;> decide

/-- C8: the skill level applied is `skill_level` clamped into `[0, 20]` and the movetime
handed to the engine is `max(move_time_ms, 25)`, at least 25.  The command handed to
`options.setoption` is, byte by byte, `name Skill Level value ` followed by the decimal
digits of the clamped skill level, it is the last option the engine has received when
the call returns, and the engine's movetime is the clamped one.  No value of either
parameter makes the call stop at validation (the search is started), and two calls that
differ only in parameters with the same clamped values have the same outcome, trace
included. -/
theorem parameters_clamped_never_rejected (env : Env) (g : Globals) (p : Str) (s t : Int)
    (buf : List Nat) (cap : Int) (e : Engine) (hcap : 2 ≤ cap)
    (hinit : (call_once env.initThrowAt g).1.initSucceeded = true)
    (heng : (call_once env.initThrowAt g).1.engine = some e) :
    ((s < 0 → clampedSkill s = 0) ∧ (20 < s → clampedSkill s = 20) ∧
      (0 ≤ s → s ≤ 20 → clampedSkill s = s) ∧ clampedSkill (-5) = 0) ∧
    (clampedMoveTime t = max t 25 ∧ 25 ≤ clampedMoveTime t ∧ clampedMoveTime 0 = 25) ∧
    Event.engine (EngineOp.setoption
      (setOptionCommand (bytes "Skill Level") (to_string (clampedSkill s)))) ∈
        (gc_stockfish_bestmove env g (some p) s t (some buf) cap).trace ∧
    Event.engine (EngineOp.go (clampedMoveTime t)) ∈
      (gc_stockfish_bestmove env g (some p) s t (some buf) cap).trace ∧
    (∀ s2 t2, clampedSkill s2 = clampedSkill s → clampedMoveTime t2 = clampedMoveTime t →
      gc_stockfish_bestmove env g (some p) s2 t2 (some buf) cap =
        gc_stockfish_bestmove env g (some p) s t (some buf) cap) ∧
    (0 ≤ clampedSkill s ∧ clampedSkill s ≤ 20) ∧
    Event.engine (EngineOp.setoption
      ([110, 97, 109, 101, 32, 83, 107, 105, 108, 108, 32, 76, 101, 118, 101, 108, 32,
          118, 97, 108, 117, 101, 32] ++
        (if clampedSkill s < 10 then [48 + (clampedSkill s).toNat]
          else [48 + (clampedSkill s).toNat / 10, 48 + (clampedSkill s).toNat % 10]))) ∈
        (gc_stockfish_bestmove env g (some p) s t (some buf) cap).trace ∧
    (∃ e2, (gc_stockfish_bestmove env g (some p) s t (some buf) cap).globals.engine = some e2 ∧
      e2.options = e.options ++
        [[110, 97, 109, 101, 32, 83, 107, 105, 108, 108, 32, 76, 101, 118, 101, 108, 32,
            118, 97, 108, 117, 101, 32] ++
          (if clampedSkill s < 10 then [48 + (clampedSkill s).toNat]
            else [48 + (clampedSkill s).toNat / 10, 48 + (clampedSkill s).toNat % 10])] ∧
      e2.movetime = some (clampedMoveTime t)) := by
  refine ⟨⟨?_, ?_, ?_, by decide⟩, ⟨?_, ?_, by decide⟩, ?_, ?_, ?_, clampedSkill_range s,
    ?_, ?_⟩
  · intro h
    simp [clampedSkill, clamp, h]
  · intro h
    have h0 : ¬ s < 0 := by omega
    simp [clampedSkill, clamp, h, h0]
  · intro h0 h20
    have h1 : ¬ s < 0 := by omega
    have h2 : ¬ 20 < s := by omega
    simp [clampedSkill, clamp, h1, h2]
  · unfold clampedMoveTime max32
    split
    · rw [max_eq_right]; omega
    · rw [max_eq_left]; omega
  · unfold clampedMoveTime max32
    split <;> omega
  · exact mem_trace_of_mem_searchTrace env g p s t buf cap e hcap hinit heng _
      (skill_mem_searchTrace p s t)
  · exact mem_trace_of_mem_searchTrace env g p s t buf cap e hcap hinit heng _
      (go_mem_searchTrace p s t)
  · intro s2 t2 hs ht
    rw [bestmove_of_ready env g p s2 t2 buf cap e hcap hinit heng,
      bestmove_of_ready env g p s t buf cap e hcap hinit heng, search_congr env e p s t s2 t2 hs ht]
  · rw [← skill_command_bytes s]
    exact mem_trace_of_mem_searchTrace env g p s t buf cap e hcap hinit heng _
      (skill_mem_searchTrace p s t)
  · refine ⟨(search env e p s t).engine, ?_, ?_, ?_⟩
    · rw [bestmove_globals_of_ready env g p s t buf cap e hcap hinit heng]
    · rw [search_engine, ← skill_command_bytes s]
    · rw [search_engine]

/-- C8, witness: skill level -5 and time budget 0 on a first call; the engine receives
`name Skill Level value 0` and a movetime of 25. -/
theorem parameters_clamped_never_rejected_witness :
    ((2 : Int) ≤ 8 ∧
      (call_once (envOf [bytes "e2e4"] []).initThrowAt Globals.initial).1.initSucceeded = true ∧
      (call_once (envOf [bytes "e2e4"] []).initThrowAt Globals.initial).1.engine =
        some readyEngine) ∧
    Event.engine (EngineOp.setoption
      [110, 97, 109, 101, 32, 83, 107, 105, 108, 108, 32, 76, 101, 118, 101, 108, 32,
        118, 97, 108, 117, 101, 32, 48]) ∈
        (gc_stockfish_bestmove (envOf [bytes "e2e4"] []) Globals.initial (some startFen) (-5) 0
          (some [7, 7, 7, 7, 7, 7, 7, 7]) 8).trace ∧
    Event.engine (EngineOp.go 25) ∈
      (gc_stockfish_bestmove (envOf [bytes "e2e4"] []) Globals.initial (some startFen) (-5) 0
        (some [7, 7, 7, 7, 7, 7, 7, 7]) 8).trace :=
  ⟨⟨by decide, by decide, by decide⟩,
    (parameters_clamped_never_rejected (envOf [bytes "e2e4"] []) Globals.initial startFen (-5) 0
      [7, 7, 7, 7, 7, 7, 7, 7] 8 readyEngine (by decide) (by decide) (by decide)).2.2.2.2.2.2.1,
    (parameters_clamped_never_rejected (envOf [bytes "e2e4"] []) Globals.initial startFen (-5) 0
      [7, 7, 7, 7, 7, 7, 7, 7] 8 readyEngine (by decide) (by decide) (by decide)).2.2.2.1⟩

/-! ## Initialization (C5) -/

/-- The three ways a call can go: rejected by validation, stopped because the engine is
unavailable, or run through `search` and `determine`. -/
theorem bestmove_cases (env : Env) (g : Globals) (fen : Option Str) (s t : Int)
    (out : Option (List Nat)) (cap : Int) :
    ((fen = none ∨ out = none ∨ cap ≤ 1) ∧
      gc_stockfish_bestmove env g fen s t out cap =
        { ret := 0, out := out, globals := g, trace := [] }) ∨
    (∃ p buf, fen = some p ∧ out = some buf ∧ 2 ≤ cap ∧
      ((call_once env.initThrowAt g).1.initSucceeded = false ∨
        (call_once env.initThrowAt g).1.engine = none) ∧
      gc_stockfish_bestmove env g fen s t out cap =
        { ret := 0, out := out, globals := (call_once env.initThrowAt g).1,
          trace := (call_once env.initThrowAt g).2 }) ∨
    (∃ p buf e, fen = some p ∧ out = some buf ∧ 2 ≤ cap ∧
      (call_once env.initThrowAt g).1.initSucceeded = true ∧
      (call_once env.initThrowAt g).1.engine = some e ∧
      gc_stockfish_bestmove env g fen s t out cap =
        { determine (search env e p s t) (call_once env.initThrowAt g).1 buf cap with
          trace := (call_once env.initThrowAt g).2 ++
            (determine (search env e p s t) (call_once env.initThrowAt g).1 buf cap).trace }) := by
  by_cases hv : fen = none ∨ out = none ∨ cap ≤ 1
  · exact Or.inl ⟨hv, bestmove_of_invalid env g fen s t out cap hv⟩
  · obtain ⟨p, rfl⟩ : ∃ p, fen = some p := by
      cases fen with
      | none => exact absurd (Or.inl rfl) hv
      | some p => exact ⟨p, rfl⟩
    obtain ⟨buf, rfl⟩ : ∃ buf, out = some buf := by
      cases out with
      | none => exact absurd (Or.inr (Or.inl rfl)) hv
      | some buf => exact ⟨buf, rfl⟩
    have hcap : 2 ≤ cap := by
      have : ¬ cap ≤ 1 := fun hc => hv (Or.inr (Or.inr hc))
      omega
    by_cases hu : (call_once env.initThrowAt g).1.initSucceeded = false ∨
        (call_once env.initThrowAt g).1.engine = none
    · exact Or.inr (Or.inl ⟨p, buf, rfl, rfl, hcap, hu,
        bestmove_of_unavailable env g p s t buf cap hcap hu⟩)
    · have hinit : (call_once env.initThrowAt g).1.initSucceeded = true := by
        cases hs : (call_once env.initThrowAt g).1.initSucceeded
        · exact absurd (Or.inl hs) hu
        · rfl
      obtain ⟨e, heng⟩ : ∃ e, (call_once env.initThrowAt g).1.engine = some e := by
        cases he : (call_once env.initThrowAt g).1.engine with
        | none => exact absurd (Or.inr he) hu
        | some e => exact ⟨e, rfl⟩
      exact Or.inr (Or.inr ⟨p, buf, e, rfl, rfl, hcap, hinit, heng,
        bestmove_of_ready env g p s t buf cap e hcap hinit heng⟩)

/-- Once `initFlag` is set, `call_once` does nothing. -/
theorem call_once_of_flag (throwAt : Option Nat) (g : Globals) (h : g.initFlag = true) :
    call_once throwAt g = (g, []) := by
  simp [call_once, h]

/-- A statement of the `try` block throws exactly when its number is the chosen one. -/
theorem runTry_thrown (k : Nat) (body : List Event) (i : Nat) (g : Globals)
    (h1 : i ≤ k) (h2 : k < i + body.length) : (runTry (some k) i body g).2.2 = true := by
  induction body generalizing i g with
  | nil => simp at h2; omega
  | cons b rest ih =>
    unfold runTry
    by_cases hk : k = i
    · simp [hk]
    · have hne : ¬ (some k = some i) := by simpa using hk
      simp only [hne, if_false]
      apply ih
      · omega
      · simp at h2; omega

/-- When a statement of `initialize_engine` throws, the engine is reset and the failure
is recorded. -/
theorem call_once_throwing (k : Nat) (g : Globals) (hflag : g.initFlag = false)
    (hk : k < initBody.length) : (call_once (some k) g).1 = failedGlobals := by
  have ht : (runTry (some k) 0 initBody g).2.2 = true :=
    runTry_thrown k initBody 0 g (Nat.zero_le _) (by omega)
  simp [call_once, hflag, initialize_engine, ht, failedGlobals]

theorem initialize_engine_coherent (throwAt : Option Nat) (g : Globals) :
    (initialize_engine throwAt g).1.initSucceeded = false →
      (initialize_engine throwAt g).1.engine = none := by
  simp only [initialize_engine]
  split
  · intro _; rfl
  · intro h; simp at h

theorem call_once_coherent (throwAt : Option Nat) (g : Globals)
    (hinv : g.initSucceeded = false → g.engine = none) :
    (call_once throwAt g).1.initSucceeded = false → (call_once throwAt g).1.engine = none := by
  unfold call_once
  split
  · exact hinv
  · exact initialize_engine_coherent throwAt g

/-- A call keeps the globals coherent: a recorded failure goes with a null `engine`. -/
theorem run_coherent (c : Call) (g : Globals)
    (hinv : g.initSucceeded = false → g.engine = none) :
    (c.run g).globals.initSucceeded = false → (c.run g).globals.engine = none := by
  unfold Call.run
  rcases bestmove_cases c.env g c.fen c.skill_level c.move_time_ms c.out_move
    c.out_move_capacity with ⟨_, h⟩ | ⟨p, buf, _, _, _, _, h⟩ | ⟨p, buf, e, _, _, _, hinit, _, h⟩
  · rw [h]; exact hinv
  · rw [h]; exact call_once_coherent _ _ hinv
  · rw [h]
    intro hf
    have : (determine (search c.env e p c.skill_level c.move_time_ms)
        (call_once c.env.initThrowAt g).1 buf c.out_move_capacity).globals.initSucceeded
          = (call_once c.env.initThrowAt g).1.initSucceeded := by
      unfold determine
      split <;> try split
      all_goals rfl
    rw [hinit] at this
    have hf2 : (determine (search c.env e p c.skill_level c.move_time_ms)
        (call_once c.env.initThrowAt g).1 buf c.out_move_capacity).globals.initSucceeded
          = false := hf
    rw [this] at hf2
    cases hf2

theorem finalGlobals_coherent (cs : List Call) (g : Globals)
    (hinv : g.initSucceeded = false → g.engine = none) :
    (finalGlobals g cs).initSucceeded = false → (finalGlobals g cs).engine = none := by
  induction cs generalizing g with
  | nil => exact hinv
  | cons c cs ih => exact ih _ (run_coherent c g hinv)

/-- After a recorded failure a call returns at line 77 at the latest, having done
nothing. -/
theorem run_of_failed (c : Call) (g : Globals) (hflag : g.initFlag = true)
    (hfail : g.initSucceeded = false) :
    c.run g = { ret := 0, out := c.out_move, globals := g, trace := [] } := by
  unfold Call.run
  rcases bestmove_cases c.env g c.fen c.skill_level c.move_time_ms c.out_move
    c.out_move_capacity with ⟨_, h⟩ | ⟨p, buf, _, _, _, _, h⟩ | ⟨p, buf, e, _, _, _, hinit, _, _⟩
  · exact h
  · rw [h, call_once_of_flag _ _ hflag]
  · rw [call_once_of_flag _ _ hflag, hfail] at hinit
    cases hinit

theorem runCalls_of_failed (cs : List Call) (g : Globals) (hflag : g.initFlag = true)
    (hfail : g.initSucceeded = false) :
    runCalls g cs =
        cs.map (fun c => { ret := 0, out := c.out_move, globals := g, trace := [] }) ∧
      finalGlobals g cs = g := by
  induction cs with
  | nil => exact ⟨rfl, rfl⟩
  | cons c cs ih =>
    simp only [runCalls, finalGlobals, List.map_cons, run_of_failed c g hflag hfail]
    exact ⟨by rw [ih.1], ih.2⟩

theorem initCount_call_once (throwAt : Option Nat) (g : Globals) :
    initCount (call_once throwAt g).2 = initBudget g := by
  unfold call_once initBudget initCount
  split
  · rfl
  · have hnot : Event.initialize_engine ∉ (initialize_engine throwAt g).2 := by
      intro h
      rw [initialize_engine_trace] at h
      have := runTry_trace_subset _ _ _ _ _ h
      simp [initBody] at this
    simp [List.count_cons, List.count_eq_zero_of_not_mem hnot]

theorem initCount_determine (env : Env) (e : Engine) (p : Str) (s t : Int) (g : Globals)
    (buf : List Nat) (cap : Int) :
    initCount (determine (search env e p s t) g buf cap).trace = 0 := by
  unfold initCount
  apply List.count_eq_zero_of_not_mem
  rcases determine_trace_shape (search env e p s t) g buf cap with h | h
  · rw [h, search_trace]
    simp [searchTrace]
  · rw [h, search_trace]
    simp [searchTrace]

/-- A call uses up the permitted run of `initialize_engine` or leaves it as it is. -/
theorem run_budget (c : Call) (g : Globals) :
    initCount (c.run g).trace + initBudget (c.run g).globals ≤ initBudget g := by
  unfold Call.run
  rcases bestmove_cases c.env g c.fen c.skill_level c.move_time_ms c.out_move
    c.out_move_capacity with ⟨_, h⟩ | ⟨p, buf, _, _, _, _, h⟩ | ⟨p, buf, e, hfen, hout, hcap, hinit, heng, h⟩
  · rw [h]
    simp [initCount]
  · rw [h]
    simp [initCount_call_once, initBudget, call_once_initFlag]
  · have hg := bestmove_globals_of_ready c.env g p c.skill_level c.move_time_ms buf
      c.out_move_capacity e hcap hinit heng
    have hflag : (gc_stockfish_bestmove c.env g (some p) c.skill_level c.move_time_ms (some buf)
        c.out_move_capacity).globals.initFlag = true := by
      rw [hg]
      exact call_once_initFlag _ _
    have htr := bestmove_trace_of_ready c.env g p c.skill_level c.move_time_ms buf
      c.out_move_capacity e hcap hinit heng
    rw [hfen, hout]
    rw [htr]
    unfold initCount at *
    rw [List.count_append]
    have h1 := initCount_call_once c.env.initThrowAt g
    have h2 := initCount_determine c.env e p c.skill_level c.move_time_ms
      (call_once c.env.initThrowAt g).1 buf c.out_move_capacity
    unfold initCount at h1 h2
    rw [h1, h2]
    simp [initBudget, hflag]

theorem runCalls_budget (cs : List Call) (g : Globals) :
    totalInitCount (runCalls g cs) + initBudget (finalGlobals g cs) ≤ initBudget g := by
  induction cs generalizing g with
  | nil => simp [runCalls, finalGlobals, totalInitCount]
  | cons c cs ih =>
    have h1 := run_budget c g
    have h2 := ih (c.run g).globals
    simp only [runCalls, finalGlobals, totalInitCount, List.map_cons, List.sum_cons] at h2 ⊢
    omega

theorem totalInitCount_append (g : Globals) (pre cs : List Call) :
    totalInitCount (runCalls g (pre ++ cs)) =
      totalInitCount (runCalls g pre) + totalInitCount (runCalls (finalGlobals g pre) cs) := by
  induction pre generalizing g with
  | nil => simp [runCalls, finalGlobals, totalInitCount]
  | cons c pre ih =>
    have := ih (c.run g).globals
    rw [List.cons_append]
    simp only [runCalls, finalGlobals, totalInitCount, List.map_cons, List.sum_cons] at this ⊢
    omega

theorem finalGlobals_append (g : Globals) (pre cs : List Call) :
    finalGlobals g (pre ++ cs) = finalGlobals (finalGlobals g pre) cs := by
  induction pre generalizing g with
  | nil => rfl
  | cons c pre ih => exact ih _

theorem totalInitCount_of_idle (g : Globals) (cs : List Call) :
    totalInitCount
      (cs.map (fun c => ({ ret := 0, out := c.out_move, globals := g, trace := [] } : Outcome)))
        = 0 := by
  induction cs with
  | nil => rfl
  | cons c cs ih =>
    simp only [totalInitCount, List.map_cons, List.sum_cons] at ih ⊢
    rw [ih]
    rfl

/-- C5: over every sequence of calls of a process `initialize_engine` runs at most
once.  If a statement of its `try` block throws, the engine is discarded and the failure
recorded; and once a failure is recorded (after any calls `pre`), the engine pointer is
null, and every later call returns 0 with an empty trace (no new attempt, no lock, no
engine operation), an untouched output and unchanged globals, so the failure stays. -/
theorem initialization_once_failure_permanent (pre cs : List Call)
    (hflag : (finalGlobals Globals.initial pre).initFlag = true)
    (hfail : (finalGlobals Globals.initial pre).initSucceeded = false) :
    (∀ calls, totalInitCount (runCalls Globals.initial calls) ≤ 1) ∧
    (∀ (g : Globals) (c : Call) (p : Str) (buf : List Nat) (k : Nat), g.initFlag = false →
      c.fen = some p → c.out_move = some buf → 2 ≤ c.out_move_capacity →
      c.env.initThrowAt = some k → k < initBody.length →
        c.run g = { ret := 0, out := c.out_move, globals := failedGlobals,
                    trace := (call_once (some k) g).2 }) ∧
    (finalGlobals Globals.initial pre).engine = none ∧
    runCalls (finalGlobals Globals.initial pre) cs =
      cs.map (fun c => { ret := 0, out := c.out_move,
                         globals := finalGlobals Globals.initial pre, trace := [] }) ∧
    finalGlobals Globals.initial (pre ++ cs) = finalGlobals Globals.initial pre ∧
    totalInitCount (runCalls Globals.initial (pre ++ cs)) =
      totalInitCount (runCalls Globals.initial pre) := by
  refine ⟨?_, ?_, ?_, ?_, ?_, ?_⟩
  · intro calls
    have := runCalls_budget calls Globals.initial
    have hb : initBudget Globals.initial = 1 := rfl
    omega
  · intro g c p buf k hg hfen hout hcap hk hlen
    have hthrow := call_once_throwing k g hg hlen
    unfold Call.run
    rw [hfen, hout]
    have hk2 : c.env.initThrowAt = some k := hk
    have hu : (call_once c.env.initThrowAt g).1.initSucceeded = false ∨
        (call_once c.env.initThrowAt g).1.engine = none := by
      rw [hk2, hthrow]
      exact Or.inl rfl
    rw [bestmove_of_unavailable c.env g p c.skill_level c.move_time_ms buf
      c.out_move_capacity hcap hu, hk2, hthrow]
  · exact finalGlobals_coherent pre Globals.initial (fun _ => rfl) hfail
  · exact (runCalls_of_failed cs _ hflag hfail).1
  · rw [finalGlobals_append, (runCalls_of_failed cs _ hflag hfail).2]
  · rw [totalInitCount_append, (runCalls_of_failed cs _ hflag hfail).1,
      totalInitCount_of_idle]
    rfl

/-- C5, witness: construction throws during the first call; two later calls with valid
arguments return 0 and do nothing. -/
theorem initialization_once_failure_permanent_witness :
    ((finalGlobals Globals.initial [throwingCall]).initFlag = true ∧
      (finalGlobals Globals.initial [throwingCall]).initSucceeded = false) ∧
    (finalGlobals Globals.initial [throwingCall]).engine = none ∧
    runCalls (finalGlobals Globals.initial [throwingCall]) [validCall, validCall] =
      [validCall, validCall].map
        (fun c => { ret := 0, out := c.out_move,
                    globals := finalGlobals Globals.initial [throwingCall], trace := [] }) :=
  ⟨⟨by decide, by decide⟩,
    (initialization_once_failure_permanent [throwingCall] [validCall, validCall]
      (by decide) (by decide)).2.2.1,
    (initialization_once_failure_permanent [throwingCall] [validCall, validCall]
      (by decide) (by decide)).2.2.2.1⟩

end StockfishBridge
